import Mathlib

set_option linter.unusedVariables false

/-!
Verification development for the mdify browser extension.

The definitions below are a shallow embedding of the extension's
content-injection subsystem (src/inject/injector.ts), the background
service worker orchestration (openAndInject / handleInjection), the
floating-overlay gating logic of the content script
(src/content/script.ts), and the exclusion-list reads of the options
page (src/options/options.tsx) and the content script.
-/

/-- Checks that the second character list occurs at the start of the first. -/
def charsStartWith : List Char → List Char → Bool
  | _, [] => true
  | [], _ :: _ => false
  | a :: as, b :: bs => a = b && charsStartWith as bs

/-- Substring containment on character lists: the second list occurs
contiguously somewhere inside the first. -/
def charsContain : List Char → List Char → Bool
  | [], pat => charsStartWith [] pat
  | h :: t, pat => charsStartWith (h :: t) pat || charsContain t pat

/-- JavaScript String.prototype.includes, also the CSS substring
attribute operator: true when pat occurs contiguously in hay. -/
def strContains (hay pat : String) : Bool :=
  charsContain hay.toList pat.toList

/-- A DOM element as observed by injectContent: its tagName (uppercase,
as the DOM reports it), the contenteditable, placeholder, aria-label and
id attributes, whether its offsetParent is non-null (the code's
visibility test), and whether mutating it during a platform-specific
injection handler raises an exception (the behaviour guarded by the
try/catch in injectContent). -/
structure Elem where
  tag : String
  contentEditableAttr : Option String
  placeholder : Option String
  ariaLabel : Option String
  idAttr : Option String
  visible : Bool
  throws : Bool
deriving DecidableEq

/-- One CSS selector occurring in the per-platform selector lists of
getTextareaSelector. -/
inductive Sel
  | taPlaceholderSub (s : String)
  | divContentEditable
  | taAriaLabelSub (s : String)
  | taId (s : String)
  | ta
  | richTa
deriving DecidableEq

/-- CSS matching for the selectors of Sel against an element. -/
def selMatches : Sel → Elem → Bool
  | Sel.taPlaceholderSub s, e =>
      e.tag = "TEXTAREA" &&
        (match e.placeholder with
          | some p => strContains p s
          | none => false)
  | Sel.divContentEditable, e =>
      e.tag = "DIV" && e.contentEditableAttr = some "true"
  | Sel.taAriaLabelSub s, e =>
      e.tag = "TEXTAREA" &&
        (match e.ariaLabel with
          | some a => strContains a s
          | none => false)
  | Sel.taId s, e => e.tag = "TEXTAREA" && e.idAttr = some s
  | Sel.ta, e => e.tag = "TEXTAREA"
  | Sel.richTa, e => e.tag = "RICH-TEXTAREA"

/-- getTextareaSelector: the per-platform selector list, in the order
written in the source. The source joins the list with a comma into a
single selector group for querySelectorAll. -/
def getTextareaSelector : String → List Sel
  | "claude" =>
      [Sel.taPlaceholderSub "message", Sel.taPlaceholderSub "Message",
       Sel.divContentEditable, Sel.taAriaLabelSub "message", Sel.ta]
  | "chatgpt" =>
      [Sel.taPlaceholderSub "Message", Sel.taPlaceholderSub "message",
       Sel.divContentEditable, Sel.taId "prompt-textarea", Sel.ta]
  | "gemini" =>
      [Sel.taPlaceholderSub "Enter", Sel.divContentEditable, Sel.richTa, Sel.ta]
  | "grok" =>
      [Sel.taPlaceholderSub "Ask", Sel.taPlaceholderSub "ask",
       Sel.divContentEditable, Sel.ta]
  | "perplexity" =>
      [Sel.taPlaceholderSub "Ask", Sel.divContentEditable, Sel.ta]
  | _ => [Sel.ta, Sel.divContentEditable]

/-- document.querySelectorAll on the comma-joined selector group: all
elements matching any selector of the group, in document order, paired
with their document index. -/
def queryAll (sels : List Sel) (doc : List Elem) : List (Nat × Elem) :=
  (doc.enum).filter (fun p => sels.any (fun s => selMatches s p.2))

/-- The code's visibility test: textElement.offsetParent !== null. -/
def isVisible (e : Elem) : Bool := e.visible

/-- The code's editability test: contenteditable attribute equals
"true", or the tag is TEXTAREA. -/
def isEditable (e : Elem) : Bool :=
  e.contentEditableAttr = some "true" || e.tag = "TEXTAREA"

/-- The failure reasons of the content-script injector. -/
inductive Reason
  | no_input_found
  | input_not_visible
  | input_not_editable
  | injection_exception
deriving DecidableEq

/-- Result of injectContent: on success the document index of the
element that was injected into, otherwise the failure reason. -/
inductive InjResult
  | ok (idx : Nat)
  | fail (r : Reason)
deriving DecidableEq

/-- The for-loop of injectContent with its three accumulator flags:
foundVisibleElement, foundVisibleEditableElement, hadInjectionError.
An invisible element is skipped; a visible non-editable element sets
the first flag and is skipped; a visible editable element is injected
inside a try/catch - when the injection handler throws, the exception
is caught, all three flags are set and the loop continues, otherwise
the function returns success for that element. After the loop the
flags select among the three failure reasons (the source's final
unknown-reason branch also returns injection_exception). -/
def injectLoop : List (Nat × Elem) → Bool → Bool → Bool → InjResult
  | [], foundVisible, foundVisibleEditable, _hadError =>
      if !foundVisible then InjResult.fail Reason.input_not_visible
      else if !foundVisibleEditable then InjResult.fail Reason.input_not_editable
      else InjResult.fail Reason.injection_exception
  | p :: rest, foundVisible, foundVisibleEditable, hadError =>
      if !(isVisible p.2) then injectLoop rest foundVisible foundVisibleEditable hadError
      else if !(isEditable p.2) then injectLoop rest true foundVisibleEditable hadError
      else if p.2.throws then injectLoop rest true true true
      else InjResult.ok p.1

/-- injectContent: resolve candidates through querySelectorAll on the
platform's selector group and run the injection loop. -/
def injectContent (doc : List Elem) (platform : String) : InjResult :=
  let elements := queryAll (getTextareaSelector platform) doc
  if elements.isEmpty then InjResult.fail Reason.no_input_found
  else injectLoop elements false false false

/-- The resolver as the specification words it, for refinement
comparison with injectContent: walk the selector list in priority
order and for each selector take the first matching element in
document order that is visible and editable. -/
def specResolveByPriority (sels : List Sel) (doc : List Elem) : Option Nat :=
  sels.findSome? (fun s =>
    ((doc.enum).find? (fun p =>
        selMatches s p.2 && (isVisible p.2 && isEditable p.2))).map Prod.fst)

/-- The first element in document order matching any selector of the
group and passing both the visibility and editability predicates. -/
def firstDocOrderCandidate (sels : List Sel) (doc : List Elem) : Option Nat :=
  ((doc.enum).find? (fun p =>
      (sels.any (fun s => selMatches s p.2)) &&
        (isVisible p.2 && isEditable p.2))).map Prod.fst

/-- Kinds of DOM events dispatched by the injection engine. -/
inductive EvKind
  | focus
  | keydown
  | keypress
  | beforeinput
  | input
  | change
  | keyup
deriving DecidableEq

/-- A dispatched event: its kind and, for InputEvent, the data field
passed at construction (none when the constructor received no data). -/
structure Ev where
  kind : EvKind
  data : Option String
deriving DecidableEq

/-- dispatchReactInputEvents: the value written to element.value, and
the full list of events dispatched on the element in dispatch order.
The source dispatches the seven-event array and then one additional
input event (the React-specific nudge with a stubbed
stopImmediatePropagation); only the beforeinput constructor receives
the payload as its data. -/
def dispatchReactInputEvents (value : String) : String × List Ev :=
  (value,
    [Ev.mk EvKind.focus none, Ev.mk EvKind.keydown none,
     Ev.mk EvKind.keypress none, Ev.mk EvKind.beforeinput (some value),
     Ev.mk EvKind.input none, Ev.mk EvKind.change none,
     Ev.mk EvKind.keyup none, Ev.mk EvKind.input none])

/-- The event sequence exactly as the specification claims it: focus,
key-down, key-press, beforeinput carrying the payload, input carrying
the same payload, change, key-up, and nothing after. Stated from the
spec's words for comparison with the source definition. -/
def specClaimedEventSeq (value : String) : List Ev :=
  [Ev.mk EvKind.focus none, Ev.mk EvKind.keydown none,
   Ev.mk EvKind.keypress none, Ev.mk EvKind.beforeinput (some value),
   Ev.mk EvKind.input (some value), Ev.mk EvKind.change none,
   Ev.mk EvKind.keyup none]

/-- Settle delay after the load event, before the first attempt. -/
def REACT_MOUNT_DELAY_MS : Nat := 1500

/-- Fixed delay between two failed injection attempts. -/
def INJECTION_RETRY_DELAY_MS : Nat := 1400

/-- Maximum number of injection attempts per delivery. -/
def MAX_INJECTION_ATTEMPTS : Nat := 5

/-- Watchdog duration set at tab creation. -/
def INJECTION_TIMEOUT_MS : Nat := 15000

/-- Reply of one sendInjectionMessage call: success, or failure with
the optional reason field of the reply (none models a reply without a
reason, mapped to unknown by the caller). -/
inductive AttemptRes
  | ok
  | err (reason : Option String)
deriving DecidableEq

/-- Whether an attempt reply is a failure. -/
def AttemptRes.isErr : AttemptRes → Bool
  | AttemptRes.ok => false
  | AttemptRes.err _ => true

/-- The reason string the retry loop records for a reply:
response.reason with fallback to unknown. -/
def errReason : AttemptRes → String
  | AttemptRes.ok => "unknown"
  | AttemptRes.err r => r.getD "unknown"

/-- Environment of one openAndInject call: whether chrome.tabs.create
yields a tab id, the delay in ms until the tab reports status complete
(none when it never does), the reply of the n-th injection attempt,
and how long the n-th attempt's reply takes. -/
structure Env where
  tabOk : Bool
  loadTime : Option Nat
  attempt : Nat → AttemptRes
  replyDelay : Nat → Nat

/-- Observable outcome of openAndInject: the resolved result fields,
the time from tab creation to resolution, and how many injection
attempt messages were sent into the destination tab. -/
structure Outcome where
  success : Bool
  reason : Option String
  attempts : Nat
  finishTime : Nat
  messagesSent : Nat
deriving DecidableEq

/-- Sum of the reply delays of attempts n, n+1, ..., n+k-1. -/
def sumDelays (env : Env) : Nat → Nat → Nat
  | _, 0 => 0
  | n, k + 1 => env.replyDelay n + sumDelays env (n + 1) k

/-- The retry loop of openAndInject, run after the settle delay: fuel
is the number of attempts still allowed, n the current attempt number,
t the elapsed time, sent the messages sent so far and lastReason the
recorded reason of the latest failure. On a successful reply the
outcome records the current attempt number; on a failing reply the
loop waits the fixed retry delay if attempts remain, otherwise it
resolves with the last failure reason and the maximum attempt count. -/
def runAttempts (env : Env) : Nat → Nat → Nat → Nat → String → Outcome
  | 0, n, t, sent, lastReason =>
      Outcome.mk false (some lastReason) (n - 1) t sent
  | fuel + 1, n, t, sent, _lastReason =>
      let t1 := t + env.replyDelay n
      match env.attempt n with
      | AttemptRes.ok => Outcome.mk true none n t1 (sent + 1)
      | AttemptRes.err r =>
          let reason := r.getD "unknown"
          if fuel = 0 then Outcome.mk false (some reason) n t1 (sent + 1)
          else runAttempts env fuel (n + 1) (t1 + INJECTION_RETRY_DELAY_MS) (sent + 1) reason

/-- openAndInject: when tab creation yields no id the call resolves
with runtime_error; the watchdog set at tab creation resolves the call
with timeout after exactly its duration unless the tab reports load
completion strictly earlier - on load completion the listener clears
the watchdog, waits the settle delay and runs the bounded retry loop. -/
def openAndInject (env : Env) : Outcome :=
  if !env.tabOk then Outcome.mk false (some "runtime_error") 0 0 0
  else
    match env.loadTime with
    | none => Outcome.mk false (some "timeout") 0 INJECTION_TIMEOUT_MS 0
    | some lt =>
        if lt < INJECTION_TIMEOUT_MS then
          runAttempts env MAX_INJECTION_ATTEMPTS 1 (lt + REACT_MOUNT_DELAY_MS) 0 "unknown"
        else Outcome.mk false (some "timeout") 0 INJECTION_TIMEOUT_MS 0

/-- The canonical entry URL of each supported platform; none for an
unsupported platform identifier. -/
def PLATFORM_URLS (p : String) : Option String :=
  if p = "claude" then some "https://claude.ai/new"
  else if p = "chatgpt" then some "https://chatgpt.com/"
  else if p = "gemini" then some "https://gemini.google.com/"
  else if p = "grok" then some "https://grok.com/"
  else if p = "perplexity" then some "https://www.perplexity.ai/"
  else none

/-- The property names every plain object literal inherits from
Object.prototype in standard JS engines (the seven ECMAScript methods
together with the Annex-B accessors); the JS in operator reports each
of them as present on PLATFORM_URLS even though none is an own key. -/
def OBJECT_PROTOTYPE_KEYS : List String :=
  ["constructor", "hasOwnProperty", "isPrototypeOf", "propertyIsEnumerable",
   "toLocaleString", "toString", "valueOf", "__proto__",
   "__defineGetter__", "__defineSetter__", "__lookupGetter__", "__lookupSetter__"]

/-- The source's guard condition platform in PLATFORM_URLS: the in
operator consults the prototype chain, so it is true for the five own
keys and also for every property name inherited from Object.prototype. -/
def platformInUrls (p : String) : Bool :=
  (PLATFORM_URLS p).isSome || decide (p ∈ OBJECT_PROTOTYPE_KEYS)

/-- A value obtained by the bracket lookup PLATFORM_URLS[platform]
once the in guard has passed: one of the five own URL strings, or the
function inherited from Object.prototype under that name. -/
inductive TargetValue
  | url (s : String)
  | inheritedFn (name : String)
deriving DecidableEq

/-- The bracket lookup PLATFORM_URLS[platform] for an identifier that
passes the in guard; like the guard it reaches the prototype chain. -/
def platformLookup (p : String) : Option TargetValue :=
  match PLATFORM_URLS p with
  | some u => some (TargetValue.url u)
  | none =>
      if p ∈ OBJECT_PROTOTYPE_KEYS then some (TargetValue.inheritedFn p)
      else none

/-- Response of the injectToPlatform workflow, with a count of how many
chrome.tabs.create calls the workflow performed. -/
structure HandleResult where
  success : Bool
  url : Option TargetValue
  reason : Option String
  attempts : Nat
  tabsOpened : Nat
deriving DecidableEq

/-- handleInjection: when the in guard fails, the workflow returns the
unknown failure without opening a tab; otherwise (for the five own
keys, but also for Object.prototype names such as toString, whose
looked-up value is an inherited function rather than a URL) one tab is
opened with the looked-up value and the openAndInject outcome is
reported together with it. -/
def handleInjection (env : Env) (platform : String) (markdown : String) : HandleResult :=
  if !(platformInUrls platform) then HandleResult.mk false none (some "unknown") 0 0
  else
    let o := openAndInject env
    HandleResult.mk o.success (platformLookup platform) o.reason o.attempts 1

/-- The AI destination hosts on which the content script refuses to
create the floating overlay. -/
def aiPlatforms : List String :=
  ["claude.ai", "chatgpt.com", "gemini.google.com", "grok.com", "perplexity.ai"]

/-- The built-in default exclusion list; the same list appears as
DEFAULT_EXCLUDED_DOMAINS in the content script and DEFAULT_EXCLUSIONS
in the options page. -/
def DEFAULT_EXCLUDED_DOMAINS : List String :=
  ["youtube.com", "youtu.be", "netflix.com", "twitch.tv", "vimeo.com",
   "dailymotion.com", "disneyplus.com", "hulu.com", "primevideo.com", "max.com",
   "twitter.com", "x.com", "facebook.com", "instagram.com", "tiktok.com", "linkedin.com",
   "whatsapp.com", "messenger.com", "discord.com", "slack.com",
   "teams.microsoft.com", "zoom.us", "meet.google.com",
   "docs.google.com", "sheets.google.com", "slides.google.com",
   "canva.com", "figma.com", "trello.com", "miro.com"]

/-- State visible to one page-load run of injectFloatingButton: the
page hostname, the stored suppression timestamp for this host (the
mdify_temp_close key, none when absent), the current Date.now value,
and the stored exclusion list (none when absent). -/
structure PageState where
  host : String
  tempClose : Option Nat
  now : Nat
  excludedDomains : Option (List String)
deriving DecidableEq

/-- How a page-load run of injectFloatingButton ends. created means
createOverlay was invoked. -/
inductive OverlayDecision
  | skippedAiPlatform
  | skippedTempClose
  | skippedExcluded
  | created
deriving DecidableEq

/-- The suppression guard of injectFloatingButton: the JS truthiness
test if (tempCloseTime) followed by now - tempCloseTime < 600000. The
subtraction is JS number subtraction, modelled on Int. -/
def tempCloseActive (tempClose : Option Nat) (now : Nat) : Bool :=
  match tempClose with
  | none => false
  | some t => t != 0 && decide ((now : Int) - (t : Int) < 600000)

/-- injectFloatingButton, up to the createOverlay call: skip on AI
destination hosts, then skip while the ten-minute suppression window
is active, then skip when the stored (or default) exclusion list
matches the host, else create the overlay. -/
def injectFloatingButton (st : PageState) : OverlayDecision :=
  if aiPlatforms.any (fun p => strContains st.host p) then OverlayDecision.skippedAiPlatform
  else if tempCloseActive st.tempClose st.now then OverlayDecision.skippedTempClose
  else
    let excluded := st.excludedDomains.getD DEFAULT_EXCLUDED_DOMAINS
    if excluded.any (fun d => strContains st.host d) then OverlayDecision.skippedExcluded
    else OverlayDecision.created

/-- The same page-load run paired with the storage state it leaves
behind: the source performs only storage reads on this path (the
suppression timestamp is written only by the close-once user action),
so the state is returned unchanged. -/
def injectFloatingButtonRun (st : PageState) : OverlayDecision × PageState :=
  (injectFloatingButton st, st)

/-- The sync-storage record holding the exclusion list, together with
a count of set operations performed on it. -/
structure SyncStorage where
  excludedDomains : Option (List String)
  writeCount : Nat
deriving DecidableEq

/-- The options page load effect (the useEffect of Options): a stored
list is used as is; when absent, the built-in default list is used and
written back to storage. -/
def optionsLoadExclusions (st : SyncStorage) : List String × SyncStorage :=
  match st.excludedDomains with
  | some l => (l, st)
  | none =>
      (DEFAULT_EXCLUDED_DOMAINS,
       SyncStorage.mk (some DEFAULT_EXCLUDED_DOMAINS) (st.writeCount + 1))

/-- The content script's exclusion-list read inside
injectFloatingButton: result.excludedDomains with a JS || fallback to
the default list; no write is performed. -/
def contentLoadExclusions (st : SyncStorage) : List String × SyncStorage :=
  (st.excludedDomains.getD DEFAULT_EXCLUDED_DOMAINS, st)

/-- A document whose only element matches no selector of any platform
list (a SPAN). -/
def docNoMatch : List Elem :=
  [Elem.mk "SPAN" none none none none true false]

/-- A document whose only element is a textarea with a null
offsetParent. -/
def docInvisible : List Elem :=
  [Elem.mk "TEXTAREA" none none none none false false]

/-- A document whose only element is a visible rich-textarea (matched
by the gemini selector list) that is neither a textarea nor marked
contenteditable. -/
def docNotEditable : List Elem :=
  [Elem.mk "RICH-TEXTAREA" none none none none true false]

/-- A document where document order and selector priority disagree for
the claude selector list: index 0 is a plain textarea (generic
fallback selector only), index 1 a textarea whose placeholder matches
the highest-priority selector. Both are visible and editable. -/
def docPriority : List Elem :=
  [Elem.mk "TEXTAREA" none none none none true false,
   Elem.mk "TEXTAREA" none (some "Type a message here") none none true false]

/-- A document whose only element is a visible editable textarea whose
injection handler throws. -/
def docThrowing : List Elem :=
  [Elem.mk "TEXTAREA" none none none none true true]

/-- Environment where the tab loads late (14000 ms, still inside the
watchdog window) and every attempt fails instantly. -/
def envLateLoad : Env :=
  Env.mk true (some 14000) (fun _ => AttemptRes.err (some "no_input_found")) (fun _ => 0)

/-- Environment where the tab never reports load completion. -/
def envNeverLoads : Env :=
  Env.mk true none (fun _ => AttemptRes.ok) (fun _ => 0)

/-- Environment realising the spec scenario: attempts 1 and 2 reply
no_input_found, attempt 3 succeeds; each reply takes 100 ms, the tab
loads after 2000 ms. -/
def envThirdTry : Env :=
  Env.mk true (some 2000)
    (fun n => if n ≤ 2 then AttemptRes.err (some "no_input_found") else AttemptRes.ok)
    (fun _ => 100)

/-- Environment for exercising the unsupported-platform guard: the tab
loads after 1000 ms and every attempt fails instantly. -/
def envGuard : Env :=
  Env.mk true (some 1000) (fun _ => AttemptRes.err (some "no_input_found")) (fun _ => 0)

/-- Sync storage before first use: no exclusion list, no writes yet. -/
def emptySync : SyncStorage := SyncStorage.mk none 0

/-- Page state with a stored suppression timestamp of 0 on an ordinary
host, observed at time 0, with an empty stored exclusion list. -/
def pageZeroStamp : PageState :=
  PageState.mk "example.com" (some 0) 0 (some [])

/-- Page state on an ordinary host five ms after the suppression
timestamp was stored. -/
def pageFreshStamp : PageState :=
  PageState.mk "example.com" (some 5) 10 (some [])

/-- Page state on the claude.ai destination host. -/
def pageOnClaude : PageState :=
  PageState.mk "claude.ai" none 0 (some [])

/-- Auxiliary: the second component of an enumFrom pair is a member of
the underlying list. -/
theorem snd_mem_of_mem_enumFrom {α : Type} :
    ∀ (l : List α) (n : Nat) (p : Nat × α), p ∈ l.enumFrom n → p.2 ∈ l := by
  intro l
  induction l with
  | nil => intro n p h; simp at h
  | cons a t ih =>
      intro n p h
      simp only [List.enumFrom_cons, List.mem_cons] at h
      rcases h with h | h
      · simp [h]
      · exact List.mem_cons_of_mem _ (ih (n + 1) p h)

/-- Auxiliary: the second component of an enum pair is a member of the
underlying list. -/
theorem snd_mem_of_mem_enum {α : Type} (l : List α) (p : Nat × α)
    (h : p ∈ l.enum) : p.2 ∈ l :=
  snd_mem_of_mem_enumFrom l 0 p h

/-- Auxiliary: when every candidate is invisible the loop ends in the
not-visible branch if the visible flag never got set. -/
theorem injectLoop_all_invisible :
    ∀ (l : List (Nat × Elem)) (fve he : Bool),
      (∀ p ∈ l, isVisible p.2 = false) →
      injectLoop l false fve he = InjResult.fail Reason.input_not_visible := by
  intro l
  induction l with
  | nil => intro fve he _; simp [injectLoop]
  | cons p rest ih =>
      intro fve he h
      have hp : isVisible p.2 = false := h p (by simp)
      simp only [injectLoop, hp, Bool.not_false, if_true]
      exact ih fve he (fun q hq => h q (List.mem_cons_of_mem _ hq))

/-- Auxiliary: with the visible flag already set and every visible
candidate non-editable, the loop ends in the not-editable branch. -/
theorem injectLoop_visible_none_editable :
    ∀ (l : List (Nat × Elem)) (he : Bool),
      (∀ p ∈ l, isVisible p.2 = true → isEditable p.2 = false) →
      injectLoop l true false he = InjResult.fail Reason.input_not_editable := by
  intro l
  induction l with
  | nil => intro he _; simp [injectLoop]
  | cons p rest ih =>
      intro he h
      cases hv : isVisible p.2 with
      | false =>
          simp only [injectLoop, hv, Bool.not_false, if_true]
          exact ih he (fun q hq hqv => h q (List.mem_cons_of_mem _ hq) hqv)
      | true =>
          have hedit : isEditable p.2 = false := h p (by simp) hv
          simp only [injectLoop, hv, hedit, Bool.not_true, Bool.not_false, if_false, if_true]
          exact ih he (fun q hq hqv => h q (List.mem_cons_of_mem _ hq) hqv)

/-- Auxiliary: a visible candidate exists but no visible candidate is
editable, so the loop ends in the not-editable branch. -/
theorem injectLoop_exists_visible_none_editable :
    ∀ (l : List (Nat × Elem)) (he : Bool),
      (∀ p ∈ l, isVisible p.2 = true → isEditable p.2 = false) →
      (∃ p ∈ l, isVisible p.2 = true) →
      injectLoop l false false he = InjResult.fail Reason.input_not_editable := by
  intro l
  induction l with
  | nil => intro he _ hex; rcases hex with ⟨p, hp, _⟩; simp at hp
  | cons p rest ih =>
      intro he h hex
      cases hv : isVisible p.2 with
      | false =>
          simp only [injectLoop, hv, Bool.not_false, if_true]
          rcases hex with ⟨q, hq, hqv⟩
          rcases List.mem_cons.mp hq with rfl | hq2
          · exact absurd hqv (by simp [hv])
          · exact ih he (fun r hr hrv => h r (List.mem_cons_of_mem _ hr) hrv) ⟨q, hq2, hqv⟩
      | true =>
          have hedit : isEditable p.2 = false := h p (by simp) hv
          simp only [injectLoop, hv, hedit, Bool.not_true, Bool.not_false, if_false, if_true]
          exact injectLoop_visible_none_editable rest he
            (fun q hq hqv => h q (List.mem_cons_of_mem _ hq) hqv)

/-- Auxiliary: with all flags set, if every visible editable candidate
throws the loop ends in the exception branch. -/
theorem injectLoop_all_throw :
    ∀ (l : List (Nat × Elem)),
      (∀ p ∈ l, isVisible p.2 = true → isEditable p.2 = true → p.2.throws = true) →
      injectLoop l true true true = InjResult.fail Reason.injection_exception := by
  intro l
  induction l with
  | nil => intro _; simp [injectLoop]
  | cons p rest ih =>
      intro h
      have htail : ∀ q ∈ rest, isVisible q.2 = true → isEditable q.2 = true → q.2.throws = true :=
        fun q hq => h q (List.mem_cons_of_mem _ hq)
      cases hv : isVisible p.2 with
      | false =>
          simp only [injectLoop, hv, Bool.not_false, if_true]
          exact ih htail
      | true =>
          cases hedit : isEditable p.2 with
          | false =>
              simp only [injectLoop, hv, hedit, Bool.not_true, Bool.not_false, if_false, if_true]
              exact ih htail
          | true =>
              have hthrow : p.2.throws = true := h p (by simp) hv hedit
              simp only [injectLoop, hv, hedit, hthrow, Bool.not_true, if_false, if_true]
              exact ih htail

/-- Auxiliary: when a visible editable candidate exists and every
visible editable candidate throws, the loop ends in the exception
branch from any flag state. -/
theorem injectLoop_exists_all_throw :
    ∀ (l : List (Nat × Elem)) (fv fve he : Bool),
      (∃ p ∈ l, isVisible p.2 = true ∧ isEditable p.2 = true) →
      (∀ p ∈ l, isVisible p.2 = true → isEditable p.2 = true → p.2.throws = true) →
      injectLoop l fv fve he = InjResult.fail Reason.injection_exception := by
  intro l
  induction l with
  | nil => intro fv fve he hex _; rcases hex with ⟨p, hp, _⟩; simp at hp
  | cons p rest ih =>
      intro fv fve he hex h
      have htail : ∀ q ∈ rest, isVisible q.2 = true → isEditable q.2 = true → q.2.throws = true :=
        fun q hq => h q (List.mem_cons_of_mem _ hq)
      cases hv : isVisible p.2 with
      | false =>
          simp only [injectLoop, hv, Bool.not_false, if_true]
          rcases hex with ⟨q, hq, hqv, hqe⟩
          rcases List.mem_cons.mp hq with rfl | hq2
          · exact absurd hqv (by simp [hv])
          · exact ih fv fve he ⟨q, hq2, hqv, hqe⟩ htail
      | true =>
          cases hedit : isEditable p.2 with
          | false =>
              simp only [injectLoop, hv, hedit, Bool.not_true, Bool.not_false, if_false, if_true]
              rcases hex with ⟨q, hq, hqv, hqe⟩
              rcases List.mem_cons.mp hq with rfl | hq2
              · exact absurd hqe (by simp [hedit])
              · exact ih true fve he ⟨q, hq2, hqv, hqe⟩ htail
          | true =>
              have hthrow : p.2.throws = true := h p (by simp) hv hedit
              simp only [injectLoop, hv, hedit, hthrow, Bool.not_true, if_false, if_true]
              exact injectLoop_all_throw rest htail

/-- Auxiliary soundness: under the flag invariant, an exception result
means every visible editable candidate throws, and either such a
candidate exists in the remaining list or the editable flag was
already set. -/
theorem injectLoop_exception_sound :
    ∀ (l : List (Nat × Elem)) (fv fve he : Bool),
      (fve = true → fv = true) →
      injectLoop l fv fve he = InjResult.fail Reason.injection_exception →
      (∀ p ∈ l, isVisible p.2 = true → isEditable p.2 = true → p.2.throws = true)
        ∧ ((∃ p ∈ l, isVisible p.2 = true ∧ isEditable p.2 = true) ∨ fve = true) := by
  intro l
  induction l with
  | nil =>
      intro fv fve he hinv hres
      cases fv with
      | false =>
          cases fve with
          | false => simp [injectLoop] at hres
          | true => exact absurd (hinv rfl) (by simp)
      | true =>
          cases fve with
          | false => simp [injectLoop] at hres
          | true => exact ⟨by simp, Or.inr rfl⟩
  | cons p rest ih =>
      intro fv fve he hinv hres
      cases hv : isVisible p.2 with
      | false =>
          rw [injectLoop] at hres
          simp only [hv, Bool.not_false, if_true] at hres
          rcases ih fv fve he hinv hres with ⟨hall, hor⟩
          refine ⟨?_, ?_⟩
          · intro q hq hqv hqe
            rcases List.mem_cons.mp hq with rfl | hq2
            · exact absurd hqv (by simp [hv])
            · exact hall q hq2 hqv hqe
          · rcases hor with ⟨q, hq, hqprop⟩ | hfve
            · exact Or.inl ⟨q, List.mem_cons_of_mem _ hq, hqprop⟩
            · exact Or.inr hfve
      | true =>
          cases hedit : isEditable p.2 with
          | false =>
              rw [injectLoop] at hres
              simp only [hv, hedit, Bool.not_true, Bool.not_false, if_false, if_true] at hres
              rcases ih true fve he (fun _ => rfl) hres with ⟨hall, hor⟩
              refine ⟨?_, ?_⟩
              · intro q hq hqv hqe
                rcases List.mem_cons.mp hq with rfl | hq2
                · exact absurd hqe (by simp [hedit])
                · exact hall q hq2 hqv hqe
              · rcases hor with ⟨q, hq, hqprop⟩ | hfve
                · exact Or.inl ⟨q, List.mem_cons_of_mem _ hq, hqprop⟩
                · exact Or.inr hfve
          | true =>
              cases hthrow : p.2.throws with
              | false =>
                  rw [injectLoop] at hres
                  simp [hv, hedit, hthrow] at hres
              | true =>
                  rw [injectLoop] at hres
                  simp only [hv, hedit, hthrow, Bool.not_true, if_false, if_true] at hres
                  rcases ih true true true (fun _ => rfl) hres with ⟨hall, _⟩
                  refine ⟨?_, Or.inl ⟨p, by simp, hv, hedit⟩⟩
                  intro q hq hqv hqe
                  rcases List.mem_cons.mp hq with rfl | hq2
                  · exact hthrow
                  · exact hall q hq2 hqv hqe

/-- Auxiliary: when no candidate throws, the loop succeeds exactly on
the first visible editable candidate of the list, regardless of flag
state. -/
theorem injectLoop_ok_iff :
    ∀ (l : List (Nat × Elem)) (fv fve he : Bool) (i : Nat),
      (∀ p ∈ l, p.2.throws = false) →
      (injectLoop l fv fve he = InjResult.ok i ↔
        (List.find? (fun p => isVisible p.2 && isEditable p.2) l).map Prod.fst = some i) := by
  intro l
  induction l with
  | nil =>
      intro fv fve he i _
      constructor
      · intro hres
        cases fv <;> cases fve <;> simp [injectLoop] at hres
      · intro hfind; simp at hfind
  | cons p rest ih =>
      intro fv fve he i h
      have htail : ∀ q ∈ rest, q.2.throws = false :=
        fun q hq => h q (List.mem_cons_of_mem _ hq)
      cases hv : isVisible p.2 with
      | false =>
          rw [injectLoop]
          simp only [hv, Bool.not_false, if_true]
          rw [List.find?_cons_of_neg _ (by simp [hv])]
          exact ih fv fve he i htail
      | true =>
          cases hedit : isEditable p.2 with
          | false =>
              rw [injectLoop]
              simp only [hv, hedit, Bool.not_true, Bool.not_false, if_false, if_true]
              rw [List.find?_cons_of_neg _ (by simp [hedit])]
              exact ih true fve he i htail
          | true =>
              have hthrow : p.2.throws = false := h p (by simp)
              rw [injectLoop]
              simp only [hv, hedit, hthrow, Bool.not_true, if_false, if_true]
              rw [List.find?_cons_of_pos _ (by simp [hv, hedit])]
              simp

/-- Auxiliary: find? over filter fuses into find? with the conjunction
of the two boolean predicates. -/
theorem find?_filter_and {α : Type} :
    ∀ (l : List α) (q pr : α → Bool),
      List.find? pr (l.filter q) = List.find? (fun a => q a && pr a) l := by
  intro l
  induction l with
  | nil => intro q pr; rfl
  | cons a t ih =>
      intro q pr
      cases hq : q a with
      | false =>
          rw [List.filter_cons_of_neg (by simp [hq]),
              List.find?_cons_of_neg _ (by simp [hq])]
          exact ih q pr
      | true =>
          rw [List.filter_cons_of_pos (by simp [hq])]
          cases hp : pr a with
          | false =>
              rw [List.find?_cons_of_neg _ (by simp [hp]),
                  List.find?_cons_of_neg _ (by simp [hq, hp])]
              exact ih q pr
          | true =>
              rw [List.find?_cons_of_pos _ (by simp [hp]),
                  List.find?_cons_of_pos _ (by simp [hq, hp])]

/-- Auxiliary: unfolding sumDelays once at the head. -/
theorem sumDelays_succ (env : Env) (n k : Nat) :
    sumDelays env n (k + 1) = env.replyDelay n + sumDelays env (n + 1) k := rfl

/-- Auxiliary: the retry loop with positive fuel and all replies
failing resolves with the last attempt's reason, the final attempt
number, the accumulated delays, and one message per attempt. -/
theorem runAttempts_exhaust (env : Env) :
    ∀ (fuel n t sent : Nat) (r0 : String),
      0 < fuel →
      (∀ i, i < fuel → (env.attempt (n + i)).isErr = true) →
      runAttempts env fuel n t sent r0 =
        Outcome.mk false (some (errReason (env.attempt (n + fuel - 1)))) (n + fuel - 1)
          (t + sumDelays env n fuel + (fuel - 1) * INJECTION_RETRY_DELAY_MS) (sent + fuel) := by
  intro fuel
  induction fuel with
  | zero => intro n t sent r0 hpos _; exact absurd hpos (by simp)
  | succ f ih =>
      intro n t sent r0 _ herr
      have h0 : (env.attempt n).isErr = true := by
        have := herr 0 (by omega)
        simpa using this
      cases hatt : env.attempt n with
      | ok => rw [hatt] at h0; simp [AttemptRes.isErr] at h0
      | err r =>
          cases f with
          | zero =>
              rw [runAttempts]
              simp only [hatt, if_pos rfl]
              simp [errReason, hatt, sumDelays, errReason]
          | succ f2 =>
              rw [runAttempts]
              simp only [hatt]
              rw [if_neg (by omega)]
              rw [ih (n + 1) (t + env.replyDelay n + INJECTION_RETRY_DELAY_MS)
                    (sent + 1) (r.getD "unknown") (by omega)
                    (fun i hi => by
                      have := herr (i + 1) (by omega)
                      simpa [Nat.add_assoc, Nat.add_comm 1 i] using this)]
              have e1 : n + 1 + (f2 + 1) - 1 = n + (f2 + 1 + 1) - 1 := by omega
              have e2 : t + env.replyDelay n + INJECTION_RETRY_DELAY_MS +
                    sumDelays env (n + 1) (f2 + 1) + (f2 + 1 - 1) * INJECTION_RETRY_DELAY_MS =
                  t + sumDelays env n (f2 + 1 + 1) + (f2 + 1 + 1 - 1) * INJECTION_RETRY_DELAY_MS := by
                simp only [sumDelays_succ, INJECTION_RETRY_DELAY_MS]
                omega
              rw [e1, e2]
              congr 1
              omega

/-- Auxiliary: the retry loop with the first k replies failing and the
k-th retry (attempt n + k) succeeding resolves successfully at that
attempt number with one message per attempt made. -/
theorem runAttempts_success (env : Env) :
    ∀ (k fuel n t sent : Nat) (r0 : String),
      k < fuel →
      (∀ i, i < k → (env.attempt (n + i)).isErr = true) →
      env.attempt (n + k) = AttemptRes.ok →
      runAttempts env fuel n t sent r0 =
        Outcome.mk true none (n + k)
          (t + sumDelays env n (k + 1) + k * INJECTION_RETRY_DELAY_MS) (sent + k + 1) := by
  intro k
  induction k with
  | zero =>
      intro fuel n t sent r0 hlt _ hok
      cases fuel with
      | zero => omega
      | succ f =>
          rw [runAttempts]
          simp only [Nat.add_zero] at hok
          simp only [hok]
          simp [sumDelays]
  | succ k2 ih =>
      intro fuel n t sent r0 hlt herr hok
      cases fuel with
      | zero => omega
      | succ f =>
          have h0 : (env.attempt n).isErr = true := by
            have := herr 0 (by omega)
            simpa using this
          cases hatt : env.attempt n with
          | ok => rw [hatt] at h0; simp [AttemptRes.isErr] at h0
          | err r =>
              rw [runAttempts]
              simp only [hatt]
              rw [if_neg (by omega)]
              rw [ih f (n + 1) (t + env.replyDelay n + INJECTION_RETRY_DELAY_MS)
                    (sent + 1) (r.getD "unknown") (by omega)
                    (fun i hi => by
                      have := herr (i + 1) (by omega)
                      simpa [Nat.add_assoc, Nat.add_comm 1 i] using this)
                    (by
                      have : n + 1 + k2 = n + (k2 + 1) := by omega
                      rw [this]; exact hok)]
              have e1 : n + 1 + k2 = n + (k2 + 1) := by omega
              have e2 : t + env.replyDelay n + INJECTION_RETRY_DELAY_MS +
                    sumDelays env (n + 1) (k2 + 1) + k2 * INJECTION_RETRY_DELAY_MS =
                  t + sumDelays env n (k2 + 1 + 1) + (k2 + 1) * INJECTION_RETRY_DELAY_MS := by
                simp only [sumDelays_succ, INJECTION_RETRY_DELAY_MS]
                omega
              rw [e1, e2]
              congr 1
              omega

/-- C1: for every destination identifier and document state the
resolver/injector distinguishes the three empty-result cases: zero
matching elements give no_input_found; matches with none visible give
input_not_visible; a visible match with no visible match editable
gives input_not_editable. -/
theorem c1_failure_taxonomy (doc : List Elem) (platform : String) :
    (queryAll (getTextareaSelector platform) doc = [] →
      injectContent doc platform = InjResult.fail Reason.no_input_found)
    ∧ (queryAll (getTextareaSelector platform) doc ≠ [] →
        (∀ p ∈ queryAll (getTextareaSelector platform) doc, isVisible p.2 = false) →
        injectContent doc platform = InjResult.fail Reason.input_not_visible)
    ∧ ((∃ p ∈ queryAll (getTextareaSelector platform) doc, isVisible p.2 = true) →
        (∀ p ∈ queryAll (getTextareaSelector platform) doc,
          isVisible p.2 = true → isEditable p.2 = false) →
        injectContent doc platform = InjResult.fail Reason.input_not_editable) := by
  refine ⟨?_, ?_, ?_⟩
  · intro hempty
    unfold injectContent
    rw [hempty]
    rfl
  · intro hne hinv
    unfold injectContent
    cases hq : queryAll (getTextareaSelector platform) doc with
    | nil => exact absurd hq hne
    | cons p rest =>
        simp only [List.isEmpty_cons, if_false, Bool.false_eq_true]
        rw [← hq]
        exact injectLoop_all_invisible _ false false (by rw [hq]; rw [hq] at hinv; exact hinv)
  · intro hex hne
    unfold injectContent
    cases hq : queryAll (getTextareaSelector platform) doc with
    | nil =>
        rw [hq] at hex
        rcases hex with ⟨p, hp, _⟩
        simp at hp
    | cons p rest =>
        simp only [List.isEmpty_cons, if_false, Bool.false_eq_true]
        rw [← hq]
        exact injectLoop_exists_visible_none_editable _ false
          (by rw [hq] at hne ⊢; exact hne) (by rw [hq] at hex ⊢; exact hex)

/-- C1 witness: the three branches realised on concrete documents. -/
theorem c1_failure_taxonomy_witness :
    injectContent docNoMatch "claude" = InjResult.fail Reason.no_input_found
    ∧ injectContent docInvisible "claude" = InjResult.fail Reason.input_not_visible
    ∧ injectContent docNotEditable "gemini" = InjResult.fail Reason.input_not_editable :=
  ⟨(c1_failure_taxonomy docNoMatch "claude").1 (by decide),
   (c1_failure_taxonomy docInvisible "claude").2.1 (by decide) (by decide),
   (c1_failure_taxonomy docNotEditable "gemini").2.2 (by decide) (by decide)⟩

/-- C2 counterexample: at the concrete payload abc the dispatched
event sequence differs from the claimed one - the input event carries
no data and an extra trailing input event is dispatched. -/
theorem c2_event_sequence_counterexample :
    (dispatchReactInputEvents "abc").2 ≠ specClaimedEventSeq "abc" := by decide

/-- C2 amended: the engine sets the control's value to the payload and
dispatches focus, key-down, key-press, beforeinput carrying the
payload as event data, an input event without event data, change and
key-up, followed by one additional input event; only beforeinput
carries the payload. -/
theorem c2_event_sequence_amended (v : String) :
    (dispatchReactInputEvents v).1 = v
    ∧ (dispatchReactInputEvents v).2.map Ev.kind =
        [EvKind.focus, EvKind.keydown, EvKind.keypress, EvKind.beforeinput,
         EvKind.input, EvKind.change, EvKind.keyup, EvKind.input]
    ∧ (dispatchReactInputEvents v).2.filter (fun e => e.data.isSome) =
        [Ev.mk EvKind.beforeinput (some v)] :=
  ⟨rfl, rfl, rfl⟩

/-- C3 counterexample: with the tab loading at 14000 ms (inside the
watchdog window) and every attempt failing instantly, the delivery
resolves at 21100 ms, exceeding the watchdog duration plus one
inter-attempt delay - the watchdog is cleared at load completion and
does not bound the retry phase. -/
theorem c3_watchdog_counterexample :
    (openAndInject envLateLoad).finishTime = 21100
    ∧ INJECTION_TIMEOUT_MS + INJECTION_RETRY_DELAY_MS < (openAndInject envLateLoad).finishTime := by
  decide

/-- C3 amended: the watchdog bounds only the waiting-for-load phase;
whenever the destination does not signal load completion strictly
within the watchdog window, the outcome is failure with reason
timeout, resolved at exactly the watchdog duration, with zero attempts
recorded and no injection attempt message ever sent. -/
theorem c3_watchdog_amended (env : Env) (h1 : env.tabOk = true)
    (h2 : ∀ lt, env.loadTime = some lt → INJECTION_TIMEOUT_MS ≤ lt) :
    openAndInject env =
      Outcome.mk false (some "timeout") 0 INJECTION_TIMEOUT_MS 0 := by
  unfold openAndInject
  rw [h1]
  simp only [Bool.not_true, if_false, Bool.false_eq_true]
  cases hl : env.loadTime with
  | none => rfl
  | some lt =>
      have hge : ¬ lt < INJECTION_TIMEOUT_MS := Nat.not_lt.mpr (h2 lt hl)
      simp [hge]

/-- C3 amended witness: a destination that never signals load
completion times out with no message sent. -/
theorem c3_watchdog_amended_witness :
    openAndInject envNeverLoads = Outcome.mk false (some "timeout") 0 INJECTION_TIMEOUT_MS 0 :=
  c3_watchdog_amended envNeverLoads (by decide) (fun lt h => nomatch h)

/-- C4 counterexample: on a concrete claude document where selector
priority and document order disagree, the spec-worded priority
resolver selects index 1 while the code injects into index 0 - the
comma-joined querySelectorAll group yields document order only. -/
theorem c4_priority_counterexample :
    specResolveByPriority (getTextareaSelector "claude") docPriority = some 1
    ∧ injectContent docPriority "claude" = InjResult.ok 0 := by decide

/-- C4 amended: candidates are collected from the union of the
prioritized selector list in document order, and (when no candidate
handler throws) the engine injects into the first element in document
order matching any selector and satisfying both the visibility and
editability predicates; priority within the selector list does not
affect the ranking. -/
theorem c4_document_order_amended (doc : List Elem) (platform : String)
    (hnothrow : ∀ e ∈ doc, e.throws = false) (i : Nat) :
    injectContent doc platform = InjResult.ok i ↔
      firstDocOrderCandidate (getTextareaSelector platform) doc = some i := by
  have hpairs : ∀ p ∈ queryAll (getTextareaSelector platform) doc, p.2.throws = false := by
    intro p hp
    exact hnothrow p.2 (snd_mem_of_mem_enum doc p (List.mem_of_mem_filter hp))
  unfold injectContent firstDocOrderCandidate
  cases hq : queryAll (getTextareaSelector platform) doc with
  | nil =>
      simp only [List.isEmpty_nil, if_true]
      constructor
      · intro h; exact absurd h (by simp)
      · intro h
        exfalso
        rw [← find?_filter_and] at h
        have hq2 : (doc.enum).filter
            (fun p => (getTextareaSelector platform).any (fun s => selMatches s p.2)) = [] := hq
        rw [hq2] at h
        simp at h
  | cons p rest =>
      simp only [List.isEmpty_cons, if_false, Bool.false_eq_true]
      rw [← hq]
      rw [injectLoop_ok_iff _ false false false i hpairs]
      unfold queryAll
      rw [find?_filter_and]

/-- C4 amended witness: on the counterexample document the code's
result coincides with the document-order candidate, index 0. -/
theorem c4_document_order_amended_witness :
    injectContent docPriority "claude" = InjResult.ok 0 :=
  (c4_document_order_amended docPriority "claude" (by decide) 0).mpr (by decide)

/-- C5: once the attempting phase is reached, attempts are sequential
and bounded by the maximum of five: a first success at attempt 1 + k
resolves successfully with that attempt count, one message per attempt
and the fixed inter-attempt delay between attempts; when all five
attempts fail, the outcome records the last failure reason and the
maximum attempt count. -/
theorem c5_retry_loop (env : Env) (lt : Nat) (h1 : env.tabOk = true)
    (h2 : env.loadTime = some lt) (h3 : lt < INJECTION_TIMEOUT_MS) :
    (∀ k, k < MAX_INJECTION_ATTEMPTS →
      (∀ i, i < k → (env.attempt (1 + i)).isErr = true) →
      env.attempt (1 + k) = AttemptRes.ok →
      openAndInject env =
        Outcome.mk true none (1 + k)
          (lt + REACT_MOUNT_DELAY_MS + sumDelays env 1 (k + 1) +
            k * INJECTION_RETRY_DELAY_MS) (k + 1))
    ∧ ((∀ i, i < MAX_INJECTION_ATTEMPTS → (env.attempt (1 + i)).isErr = true) →
        openAndInject env =
          Outcome.mk false (some (errReason (env.attempt MAX_INJECTION_ATTEMPTS)))
            MAX_INJECTION_ATTEMPTS
            (lt + REACT_MOUNT_DELAY_MS + sumDelays env 1 MAX_INJECTION_ATTEMPTS +
              (MAX_INJECTION_ATTEMPTS - 1) * INJECTION_RETRY_DELAY_MS)
            MAX_INJECTION_ATTEMPTS) := by
  have hopen : openAndInject env =
      runAttempts env MAX_INJECTION_ATTEMPTS 1 (lt + REACT_MOUNT_DELAY_MS) 0 "unknown" := by
    unfold openAndInject
    rw [h1]
    simp [h2, h3]
  constructor
  · intro k hk herr hok
    rw [hopen, runAttempts_success env k MAX_INJECTION_ATTEMPTS 1
      (lt + REACT_MOUNT_DELAY_MS) 0 "unknown" hk herr hok]
    simp
  · intro herr
    rw [hopen, runAttempts_exhaust env MAX_INJECTION_ATTEMPTS 1
      (lt + REACT_MOUNT_DELAY_MS) 0 "unknown" (by decide) herr]
    have e1 : 1 + MAX_INJECTION_ATTEMPTS - 1 = MAX_INJECTION_ATTEMPTS := by decide
    rw [e1]
    simp

/-- C5 witness: the spec scenario - attempts one and two fail with
no_input_found, attempt three succeeds, so the outcome records success
with three attempts, resolved 2000 + 1500 + 300 + 2800 ms after the
tab was opened. -/
theorem c5_retry_loop_witness :
    openAndInject envThirdTry = Outcome.mk true none 3 6600 3 := by
  have h := (c5_retry_loop envThirdTry 2000 (by decide) (by decide) (by decide)).1 2
    (by decide) (by decide) (by decide)
  rw [h]
  decide

/-- C6: the engine reports the simulation-exception reason exactly
when a visible editable candidate exists and every visible editable
candidate's DOM mutation throws; the exception is caught inside
injectContent (the loop continues past a throwing candidate and the
function always returns an InjectionResult value), so no exception
escapes to the caller. -/
theorem c6_exception_containment (doc : List Elem) (platform : String) :
    injectContent doc platform = InjResult.fail Reason.injection_exception ↔
      ((∃ p ∈ queryAll (getTextareaSelector platform) doc,
          isVisible p.2 = true ∧ isEditable p.2 = true)
        ∧ (∀ p ∈ queryAll (getTextareaSelector platform) doc,
            isVisible p.2 = true → isEditable p.2 = true → p.2.throws = true)) := by
  unfold injectContent
  cases hq : queryAll (getTextareaSelector platform) doc with
  | nil =>
      simp only [List.isEmpty_nil, if_true]
      constructor
      · intro h; exact absurd h (by simp)
      · intro h
        rcases h.1 with ⟨p, hp, _⟩
        simp at hp
  | cons p rest =>
      simp only [List.isEmpty_cons, if_false, Bool.false_eq_true]
      rw [← hq]
      constructor
      · intro h
        rcases injectLoop_exception_sound _ false false false (fun h2 => h2) h with ⟨hall, hor⟩
        refine ⟨?_, hall⟩
        rcases hor with hex | hfalse
        · exact hex
        · exact absurd hfalse (by simp)
      · intro h
        exact injectLoop_exists_all_throw _ false false false h.1 h.2

/-- C6 witness: a document whose only candidate is a visible editable
textarea whose handler throws yields the injection_exception reason. -/
theorem c6_exception_containment_witness :
    injectContent docThrowing "claude" = InjResult.fail Reason.injection_exception :=
  (c6_exception_containment docThrowing "claude").mpr (by decide)

/-- C7 counterexample: on first use through the content script the
exclusion list is absent, the default set is used on both of two
consecutive reads, yet nothing is persisted - the seed is written zero
times, not once, and storage still holds no list. -/
theorem c7_seeding_counterexample :
    (contentLoadExclusions emptySync).1 = DEFAULT_EXCLUDED_DOMAINS
    ∧ (contentLoadExclusions (contentLoadExclusions emptySync).2).1 = DEFAULT_EXCLUDED_DOMAINS
    ∧ (contentLoadExclusions (contentLoadExclusions emptySync).2).2.writeCount = 0
    ∧ (contentLoadExclusions (contentLoadExclusions emptySync).2).2.excludedDomains = none := by
  decide

/-- C7 amended: only the options page seeds the store - on a first
options-page read of an absent list, the default set is returned and
persisted exactly once, and a second options-page read returns the
same set without writing again; the content script's read falls back
to the same default set without persisting it. -/
theorem c7_seeding_amended (st : SyncStorage) (h : st.excludedDomains = none) :
    (optionsLoadExclusions st).1 = DEFAULT_EXCLUDED_DOMAINS
    ∧ (optionsLoadExclusions st).2.writeCount = st.writeCount + 1
    ∧ (optionsLoadExclusions (optionsLoadExclusions st).2).1 = DEFAULT_EXCLUDED_DOMAINS
    ∧ (optionsLoadExclusions (optionsLoadExclusions st).2).2 = (optionsLoadExclusions st).2
    ∧ (contentLoadExclusions st).1 = DEFAULT_EXCLUDED_DOMAINS
    ∧ (contentLoadExclusions st).2 = st := by
  simp [optionsLoadExclusions, contentLoadExclusions, h]

/-- C7 amended witness: realised on the empty initial storage. -/
theorem c7_seeding_amended_witness :
    (optionsLoadExclusions emptySync).2.writeCount = 1
    ∧ (optionsLoadExclusions (optionsLoadExclusions emptySync).2).2 =
        (optionsLoadExclusions emptySync).2
    ∧ (contentLoadExclusions emptySync).2 = emptySync := by
  have h := c7_seeding_amended emptySync (by decide)
  exact ⟨h.2.1, h.2.2.2.1, h.2.2.2.2.2⟩

/-- C8 counterexample: a stored suppression timestamp of 0 on an
ordinary host at time 0 satisfies now - t < 600000, yet the overlay is
created - the JS truthiness guard treats the zero timestamp as
absent, so the claimed equivalence fails. -/
theorem c8_suppression_counterexample :
    ((pageZeroStamp.now : Int) - (0 : Int) < 600000)
    ∧ pageZeroStamp.tempClose = some 0
    ∧ injectFloatingButton pageZeroStamp = OverlayDecision.created := by decide

/-- C8 amended: on a host that is not an AI destination, the page-load
flow leaves storage unchanged (the store never expires or deletes the
timestamp) and skips rendering exactly when the stored timestamp is
nonzero (truthy) and now - t < 600000 ms; otherwise - in particular
when the timestamp is at least ten minutes old - it proceeds to the
exclusion check. -/
theorem c8_suppression_amended (st : PageState) (t : Nat)
    (hhost : ∀ p ∈ aiPlatforms, strContains st.host p = false)
    (ht : st.tempClose = some t) :
    (injectFloatingButtonRun st).2 = st
    ∧ (injectFloatingButton st = OverlayDecision.skippedTempClose ↔
        (t ≠ 0 ∧ (st.now : Int) - (t : Int) < 600000))
    ∧ (¬(t ≠ 0 ∧ (st.now : Int) - (t : Int) < 600000) →
        injectFloatingButton st = OverlayDecision.skippedExcluded
        ∨ injectFloatingButton st = OverlayDecision.created) := by
  have hany : aiPlatforms.any (fun p => strContains st.host p) = false := by
    simp only [List.any_eq_false]
    intro p hp
    simp [hhost p hp]
  refine ⟨rfl, ?_, ?_⟩
  · unfold injectFloatingButton
    rw [hany]
    simp only [Bool.false_eq_true, if_false]
    cases hact : tempCloseActive st.tempClose st.now with
    | true =>
        simp only [if_true]
        unfold tempCloseActive at hact
        rw [ht] at hact
        simp only [Bool.and_eq_true, bne_iff_ne, decide_eq_true_eq] at hact
        simp [hact]
    | false =>
        simp only [Bool.false_eq_true, if_false]
        unfold tempCloseActive at hact
        rw [ht] at hact
        simp only [Bool.and_eq_false_iff, bne_eq_false_iff_eq, decide_eq_false_iff_not] at hact
        constructor
        · intro hres
          exfalso
          cases hres2 : ((st.excludedDomains.getD DEFAULT_EXCLUDED_DOMAINS).any
              (fun d => strContains st.host d)) with
          | true => simp [hres2] at hres
          | false => simp [hres2] at hres
        · intro hcond
          rcases hact with h0 | hlt
          · exact absurd h0 hcond.1
          · exact absurd hcond.2 hlt
  · intro hcond
    unfold injectFloatingButton
    rw [hany]
    simp only [Bool.false_eq_true, if_false]
    have hact : tempCloseActive st.tempClose st.now = false := by
      unfold tempCloseActive
      rw [ht]
      simp only [Bool.and_eq_false_iff, bne_eq_false_iff_eq, decide_eq_false_iff_not]
      by_cases h0 : t = 0
      · exact Or.inl h0
      · exact Or.inr (fun hlt => hcond ⟨h0, hlt⟩)
    rw [hact]
    simp only [Bool.false_eq_true, if_false]
    cases hex : ((st.excludedDomains.getD DEFAULT_EXCLUDED_DOMAINS).any
        (fun d => strContains st.host d)) with
    | true => simp [hex]
    | false => simp [hex]

/-- C8 amended witness: a fresh five-ms-old timestamp on an ordinary
host suppresses the overlay and leaves storage unchanged. -/
theorem c8_suppression_amended_witness :
    injectFloatingButton pageFreshStamp = OverlayDecision.skippedTempClose
    ∧ (injectFloatingButtonRun pageFreshStamp).2 = pageFreshStamp := by
  have h := c8_suppression_amended pageFreshStamp 5 (by decide) (by decide)
  exact ⟨h.2.1.mpr (by decide), h.1⟩

/-- C9 counterexample: toString is outside the five supported
destinations, yet the workflow does not return the immediate unknown
failure and does open a destination tab - the JS in operator finds
toString on Object.prototype, so the unsupported-platform guard does
not fire. -/
theorem c9_unknown_platform_counterexample :
    ("toString" ≠ "claude" ∧ "toString" ≠ "chatgpt" ∧ "toString" ≠ "gemini"
      ∧ "toString" ≠ "grok" ∧ "toString" ≠ "perplexity")
    ∧ handleInjection envGuard "toString" "# Hello" ≠
        HandleResult.mk false none (some "unknown") 0 0
    ∧ (handleInjection envGuard "toString" "# Hello").tabsOpened = 1 := by decide

/-- C9 amended: for a platform identifier outside the five supported
destinations, the workflow returns success false, reason unknown, zero
attempts and no URL without opening a tab exactly when the identifier
is also not an Object.prototype property name; for an inherited
property name such as toString the in guard passes, one destination
tab is opened, and the reported result fields come from the
openAndInject outcome rather than from the immediate unknown reply. -/
theorem c9_unknown_platform_amended (env : Env) (platform markdown : String)
    (h : platform ≠ "claude" ∧ platform ≠ "chatgpt" ∧ platform ≠ "gemini"
      ∧ platform ≠ "grok" ∧ platform ≠ "perplexity") :
    (platform ∉ OBJECT_PROTOTYPE_KEYS →
      handleInjection env platform markdown =
        HandleResult.mk false none (some "unknown") 0 0)
    ∧ (platform ∈ OBJECT_PROTOTYPE_KEYS →
        (handleInjection env platform markdown).tabsOpened = 1
        ∧ (handleInjection env platform markdown).success = (openAndInject env).success
        ∧ (handleInjection env platform markdown).reason = (openAndInject env).reason
        ∧ (handleInjection env platform markdown).attempts = (openAndInject env).attempts) := by
  rcases h with ⟨h1, h2, h3, h4, h5⟩
  have hurls : PLATFORM_URLS platform = none := by
    unfold PLATFORM_URLS
    simp [h1, h2, h3, h4, h5]
  constructor
  · intro hmem
    have hin : platformInUrls platform = false := by
      unfold platformInUrls
      rw [hurls]
      simp [hmem]
    unfold handleInjection
    rw [hin]
    rfl
  · intro hmem
    have hin : platformInUrls platform = true := by
      unfold platformInUrls
      simp [hmem]
    unfold handleInjection
    rw [hin]
    exact ⟨rfl, rfl, rfl, rfl⟩

/-- C9 amended witness: the identifier copilot (outside the five and
not inherited) fails immediately with no tab, while the identifier
toString (inherited from Object.prototype) passes the guard and opens
a tab. -/
theorem c9_unknown_platform_amended_witness :
    handleInjection envGuard "copilot" "# Hello" =
      HandleResult.mk false none (some "unknown") 0 0
    ∧ (handleInjection envGuard "toString" "# Hello").tabsOpened = 1 :=
  ⟨(c9_unknown_platform_amended envGuard "copilot" "# Hello"
      ⟨by decide, by decide, by decide, by decide, by decide⟩).1 (by decide),
   ((c9_unknown_platform_amended envGuard "toString" "# Hello"
      ⟨by decide, by decide, by decide, by decide, by decide⟩).2 (by decide)).1⟩

/-- C10: on any page whose hostname contains one of the five AI
destination hosts, injectFloatingButton returns before any storage is
consulted, regardless of suppression timestamp, current time or stored
exclusion list, so the floating overlay is never created. -/
theorem c10_ai_host_no_overlay (st : PageState)
    (h : ∃ p ∈ aiPlatforms, strContains st.host p = true) :
    injectFloatingButton st = OverlayDecision.skippedAiPlatform := by
  unfold injectFloatingButton
  have hany : aiPlatforms.any (fun p => strContains st.host p) = true := by
    rcases h with ⟨p, hp, hc⟩
    simp only [List.any_eq_true]
    exact ⟨p, hp, hc⟩
  rw [hany]
  simp

/-- C10 witness: on the claude.ai host the overlay is skipped. -/
theorem c10_ai_host_no_overlay_witness :
    injectFloatingButton pageOnClaude = OverlayDecision.skippedAiPlatform :=
  c10_ai_host_no_overlay pageOnClaude ⟨"claude.ai", by decide, by decide⟩
